import Mathlib

/-!
Shallow embedding of the rotary-encoder quadrature decoder and position
tracker of `prog_calculatorOneRing.py` (class `Rotary` and its helper
functions), together with theorems settling the specification claims
about it.  Python integers are modelled as `Int` (`//` is `Int.fdiv`,
`%` is `Int.fmod`); table indices and bit-masked decoder states are
modelled as `Nat` with `&&&`.
-/

namespace OneRing

/-- `_DIR_CW = 0x10`: clockwise step direction tag. -/
def DIR_CW : Nat := 0x10

/-- `_DIR_CCW = 0x20`: counter-clockwise step direction tag. -/
def DIR_CCW : Nat := 0x20

/-- `_R_START = 0x0`: the rest/start decoder state. -/
def R_START : Nat := 0x0

def R_CW_1 : Nat := 0x1
def R_CW_2 : Nat := 0x2
def R_CW_3 : Nat := 0x3
def R_CCW_1 : Nat := 0x4
def R_CCW_2 : Nat := 0x5
def R_CCW_3 : Nat := 0x6

/-- `_R_ILLEGAL = 0x7`: the illegal/glitch decoder state. -/
def R_ILLEGAL : Nat := 0x7

/-- `_transition_table`: full-step table, rows indexed by current state,
columns by the 2-bit CLK/DT sample (00, 01, 10, 11). -/
def transition_table : List (List Nat) := [
  [R_START, R_CCW_1, R_CW_1, R_START],
  [R_CW_2, R_START, R_CW_1, R_START],
  [R_CW_2, R_CW_3, R_CW_1, R_START],
  [R_CW_2, R_CW_3, R_START, R_START ||| DIR_CW],
  [R_CCW_2, R_CCW_1, R_START, R_START],
  [R_CCW_2, R_CCW_1, R_CCW_3, R_START],
  [R_CCW_2, R_START, R_CCW_3, R_START ||| DIR_CCW],
  [R_START, R_START, R_START, R_START]]

/-- `_transition_table_half_step`: half-step table. -/
def transition_table_half_step : List (List Nat) := [
  [R_CW_3, R_CW_2, R_CW_1, R_START],
  [R_CW_3 ||| DIR_CCW, R_START, R_CW_1, R_START],
  [R_CW_3 ||| DIR_CW, R_CW_2, R_START, R_START],
  [R_CW_3, R_CCW_2, R_CCW_1, R_START],
  [R_CW_3, R_CW_2, R_CCW_1, R_START ||| DIR_CW],
  [R_CW_3, R_CCW_2, R_CW_3, R_START ||| DIR_CCW],
  [R_START, R_START, R_START, R_START],
  [R_START, R_START, R_START, R_START]]

/-- `_STATE_MASK = 0x07`. -/
def STATE_MASK : Nat := 0x07

/-- `_DIR_MASK = 0x30`. -/
def DIR_MASK : Nat := 0x30

/-- One table lookup, `table[state & _STATE_MASK][pins]`, as performed in
`Rotary._process_rotary_pins`.  The masked row index is `≤ 7` and the
sample is a 2-bit value, so the `getD` defaults are never reached. -/
def advance (table : List (List Nat)) (state : Nat) (pins : Fin 4) : Nat :=
  (table.getD (state &&& STATE_MASK) []).getD pins.val 0

/-- The three-valued direction event the decoder yields on a sample, read
off the direction bits of the new state exactly as lines 136-142 of the
source do (`_DIR_CW` → clockwise, `_DIR_CCW` → counter-clockwise, else
none). -/
inductive DirectionEvent where
  | none : DirectionEvent
  | clockwise : DirectionEvent
  | counterclockwise : DirectionEvent
deriving DecidableEq

/-- Direction event extracted from a (new) decoder state. -/
def eventOf (state : Nat) : DirectionEvent :=
  if state &&& DIR_MASK == DIR_CW then .clockwise
  else if state &&& DIR_MASK == DIR_CCW then .counterclockwise
  else .none

/-- Run the decoder over a sample sequence from a given state, returning
the final state and the list of direction events, one per sample. -/
def decodeSeq (table : List (List Nat)) (state : Nat) :
    List (Fin 4) → Nat × List DirectionEvent
  | [] => (state, [])
  | p :: ps =>
    let s' := advance table state p
    let r := decodeSeq table s' ps
    (r.1, eventOf s' :: r.2)

/-- `_wrap(value, incr, lower_bound, upper_bound)` translated verbatim:
Python `//` is floor division (`Int.fdiv`) and Python `%` is floor mod
(`Int.fmod`). -/
def wrap (value incr lower_bound upper_bound : Int) : Int :=
  let range := upper_bound - lower_bound + 1
  let value := value + incr
  let value :=
    if value < lower_bound then
      value + range * ((lower_bound - value).fdiv range + 1)
    else value
  lower_bound + (value - lower_bound).fmod range

/-- `_bound(value, incr, lower_bound, upper_bound)`. -/
def bound (value incr lower_bound upper_bound : Int) : Int :=
  min upper_bound (max lower_bound (value + incr))

/-- A registered listener callback.  A listener either runs to completion
(`ok`) or raises an exception when invoked (`bad`); the `Nat` is an
identifier used to observe which listeners were invoked. -/
inductive Listener where
  | ok : Nat → Listener
  | bad : Nat → Listener
deriving DecidableEq

/-- `_trigger(rotary_instance)`: iterates the listener list invoking each
listener in order.  A `bad` listener raises, aborting the loop.  Returns
the identifiers of the listeners that were invoked (in order) and whether
an exception escaped the loop. -/
def trigger : List Listener → List Nat × Bool
  | [] => ([], false)
  | .ok i :: rest =>
    let r := trigger rest
    (i :: r.1, r.2)
  | .bad i :: _ => ([i], true)

/-- `Rotary.RANGE_UNBOUNDED = 1`. -/
def RANGE_UNBOUNDED : Nat := 1

/-- `Rotary.RANGE_WRAP = 2`. -/
def RANGE_WRAP : Nat := 2

/-- `Rotary.RANGE_BOUNDED = 3`. -/
def RANGE_BOUNDED : Nat := 3

/-- The state of a `Rotary` instance.  `reverse` stores `-1` or `1` as in
the source (`-1 if reverse else 1`). -/
structure Rotary where
  min_val : Int
  max_val : Int
  incr : Int
  reverse : Int
  range_mode : Nat
  value : Int
  state : Nat
  half_step : Bool
  invert : Bool
  listener : List Listener
deriving DecidableEq

/-- `Rotary.__init__(min_val, max_val, incr, reverse, range_mode,
half_step, invert)`. -/
def mkRotary (min_val max_val incr : Int) (reverse : Bool)
    (range_mode : Nat) (half_step invert : Bool) : Rotary :=
  { min_val := min_val
    max_val := max_val
    incr := incr
    reverse := if reverse then -1 else 1
    range_mode := range_mode
    value := min_val
    state := R_START
    half_step := half_step
    invert := invert
    listener := [] }

/-- Result of one `_process_rotary_pins` call: the updated instance, the
identifiers of listeners that were invoked, and the faults surfaced to
any error-observation channel.  The source wraps the trigger in a bare
`try`/`except: pass`, so an exception escaping `_trigger` is discarded:
`reported` is therefore always empty. -/
structure ProcessResult where
  rotary : Rotary
  invoked : List Nat
  reported : List Nat
deriving DecidableEq

/-- Lines 123-127 of `_process_rotary_pins`: the inversion of the raw
2-bit sample when `self._invert` is set (`~x & 0x03` on a 2-bit value
`x` is `3 - x`). -/
def pinsOf (invert : Bool) (pins_raw : Fin 4) : Fin 4 :=
  if invert then ⟨3 - pins_raw.val, by omega⟩ else pins_raw

/-- Lines 129-135 of `_process_rotary_pins`: the table-selection and
lookup of the next decoder state. -/
def nextState (r : Rotary) (pins : Fin 4) : Nat :=
  if r.half_step then advance transition_table_half_step r.state pins
  else advance transition_table r.state pins

/-- Lines 138-144 of `_process_rotary_pins`: the signed increment
computed from the direction bits, multiplied by `self._reverse`. -/
def stepOf (r : Rotary) (direction : Nat) : Int :=
  (if direction == DIR_CW then r.incr
   else if direction == DIR_CCW then -r.incr
   else 0) * r.reverse

/-- Lines 146-159 of `_process_rotary_pins`: the range-mode dispatch
computing the new tracked value. -/
def applyRange (r : Rotary) (incr : Int) : Int :=
  if r.range_mode == RANGE_WRAP then wrap r.value incr r.min_val r.max_val
  else if r.range_mode == RANGE_BOUNDED then bound r.value incr r.min_val r.max_val
  else r.value + incr

/-- `Rotary._process_rotary_pins` with the freshly sampled 2-bit CLK/DT
pair supplied as `pins_raw` (bit 1 = CLK, bit 0 = DT). -/
def process (r : Rotary) (pins_raw : Fin 4) : ProcessResult :=
  let old_value := r.value
  let clk_dt_pins := pinsOf r.invert pins_raw
  let state := nextState r clk_dt_pins
  let direction := state &&& DIR_MASK
  let incr := stepOf r direction
  let value := applyRange r incr
  let tr :=
    if old_value ≠ value ∧ r.listener ≠ [] then trigger r.listener
    else ([], false)
  { rotary := { r with state := state, value := value }
    invoked := tr.1
    reported := [] }

/-- Run `process` over a sequence of samples, keeping only the instance. -/
def processSeq (r : Rotary) : List (Fin 4) → Rotary
  | [] => r
  | p :: ps => processSeq (process r p).rotary ps

/-- The tracked-value deltas (value after each sample minus value before
it) along a sample sequence. -/
def deltasSeq (r : Rotary) : List (Fin 4) → List Int
  | [] => []
  | p :: ps =>
    let r' := (process r p).rotary
    (r'.value - r.value) :: deltasSeq r' ps

/-- `Rotary.set(value, min_val, incr, max_val, reverse, range_mode)`:
applies every supplied field unconditionally, then resets the decoder
state to `_R_START`.  The source contains no validation and no listener
invocation; the second component records the listeners invoked by the
call (none). -/
def Rotary.set (r : Rotary) (value min_val incr max_val : Option Int)
    (reverse : Option Bool) (range_mode : Option Nat) : Rotary × List Nat :=
  ({ r with
      value := value.getD r.value
      min_val := min_val.getD r.min_val
      max_val := max_val.getD r.max_val
      incr := incr.getD r.incr
      reverse := match reverse with
        | some b => if b then -1 else 1
        | none => r.reverse
      range_mode := range_mode.getD r.range_mode
      state := R_START }, [])

/-- `Rotary.reset()`: sets the tracked value to `0`; invokes no
listener. -/
def Rotary.reset (r : Rotary) : Rotary × List Nat :=
  ({ r with value := 0 }, [])

/-- The CLK/DT line levels under which each non-illegal full-step decoder
state is occupied, read off `transition_table`: the rest state sits at
11, `_R_CW_1` is entered on 10, `_R_CW_2` on 00, `_R_CW_3` on 01,
`_R_CCW_1` on 01, `_R_CCW_2` on 00, `_R_CCW_3` on 10.  Under correct
quadrature wiring consecutive samples change at most one line, so a
sample complementing both lines of the current state (`3 - levels`)
cannot occur on a legal quadrature path — it skips an intermediate
state.  The value at the illegal state is unused (that state is treated
separately). -/
def stateLevels : Fin 8 → Fin 4
  | 0 => 3
  | 1 => 2
  | 2 => 0
  | 3 => 1
  | 4 => 1
  | 5 => 0
  | 6 => 2
  | 7 => 3

/-- A tracker poised one sample before completing a clockwise detent,
with a faulting first listener and a healthy second listener. -/
def faultyListenerTracker : Rotary :=
  { mkRotary 0 10 1 false RANGE_UNBOUNDED false false with
      state := R_CW_3, listener := [Listener.bad 0, Listener.ok 1] }

/-! ### Projection lemmas for `process` -/

theorem process_state (r : Rotary) (p : Fin 4) :
    (process r p).rotary.state = nextState r (pinsOf r.invert p) := rfl

theorem process_value (r : Rotary) (p : Fin 4) :
    (process r p).rotary.value =
      applyRange r (stepOf r (nextState r (pinsOf r.invert p) &&& DIR_MASK)) := rfl

theorem process_invoked_eq (r : Rotary) (p : Fin 4) :
    (process r p).invoked =
      (if r.value ≠ applyRange r (stepOf r (nextState r (pinsOf r.invert p) &&& DIR_MASK))
          ∧ r.listener ≠ [] then trigger r.listener else ([], false)).1 := rfl

theorem process_half_step (r : Rotary) (p : Fin 4) :
    (process r p).rotary.half_step = r.half_step := rfl

/-! ### `wrap` characterisation -/

theorem wrap_unfold (v i lo hi : Int) :
    wrap v i lo hi =
      lo + ((if v + i < lo
              then v + i + (hi - lo + 1) * ((lo - (v + i)).fdiv (hi - lo + 1) + 1)
              else v + i) - lo).fmod (hi - lo + 1) := rfl

/-- With a positive range, `_wrap` is exactly
`lower + ((value + incr - lower) mod range)` with a mathematical
(non-negative) modulus. -/
theorem wrap_eq (v i lo hi : Int) (h : 0 < hi - lo + 1) :
    wrap v i lo hi = lo + (v + i - lo) % (hi - lo + 1) := by
  rw [wrap_unfold]
  split_ifs with hc
  · rw [Int.fmod_eq_emod _ (by omega)]
    have he : v + i + (hi - lo + 1) * ((lo - (v + i)).fdiv (hi - lo + 1) + 1) - lo
        = v + i - lo + (hi - lo + 1) * ((lo - (v + i)).fdiv (hi - lo + 1) + 1) := by
      ring
    rw [he, Int.add_mul_emod_self_left]
  · rw [Int.fmod_eq_emod _ (by omega)]

/-- With ordered bounds, the result of `_wrap` lies in
`[lower_bound, upper_bound]`. -/
theorem wrap_mem (v i lo hi : Int) (h : lo ≤ hi) :
    lo ≤ wrap v i lo hi ∧ wrap v i lo hi ≤ hi := by
  have hR : 0 < hi - lo + 1 := by omega
  rw [wrap_eq v i lo hi hR]
  have h1 := Int.emod_nonneg (v + i - lo) (by omega : hi - lo + 1 ≠ 0)
  have h2 := Int.emod_lt_of_pos (v + i - lo) hR
  omega

/-! ### Claim theorems -/

/-- C1: from `_R_START` with the full-step table, the canonical clockwise
detent sample sequence 10, 00, 01, 11 yields the event sequence
none, none, none, clockwise — exactly one `Clockwise` event, on the final
sample — and the decoder's state bits are back at `_R_START`. -/
theorem cw_detent_one_event :
    (decodeSeq transition_table R_START [2, 0, 1, 3]).2
        = [.none, .none, .none, .clockwise] ∧
    (decodeSeq transition_table R_START [2, 0, 1, 3]).1 &&& STATE_MASK
        = R_START := by
  decide

/-- C3: whenever `upper − lower + 1 > 0`, `_wrap` returns
`lower + ((value + incr − lower) mod (upper − lower + 1))` and the result
lies in `[lower, upper]`, for every integer increment. -/
theorem wrap_spec (v i lo hi : Int) (h : 0 < hi - lo + 1) :
    wrap v i lo hi = lo + (v + i - lo) % (hi - lo + 1) ∧
    lo ≤ wrap v i lo hi ∧ wrap v i lo hi ≤ hi :=
  ⟨wrap_eq v i lo hi h, wrap_mem v i lo hi (by omega)⟩

theorem wrap_spec_witness :
    0 < (10 : Int) - 1 + 1 ∧
    (wrap 3 (-25) 1 10 = 1 + (3 + -25 - 1) % (10 - 1 + 1) ∧
     1 ≤ wrap 3 (-25) 1 10 ∧ wrap 3 (-25) 1 10 ≤ 10) :=
  ⟨by decide, wrap_spec 3 (-25) 1 10 (by decide)⟩

/-- C7: for ordered bounds and `v ∈ [lo, hi]`, wrapping by `k` and then
by `-k` returns `v`. -/
theorem wrap_roundtrip (v k lo hi : Int) (hlh : lo ≤ hi)
    (h1 : lo ≤ v) (h2 : v ≤ hi) :
    wrap (wrap v k lo hi) (-k) lo hi = v := by
  have hR : 0 < hi - lo + 1 := by omega
  rw [wrap_eq v k lo hi hR, wrap_eq _ (-k) lo hi hR]
  have e1 : lo + (v + k - lo) % (hi - lo + 1) + -k - lo
      = (v + k - lo) % (hi - lo + 1) - k := by ring
  rw [e1]
  have e2 : ((v + k - lo) % (hi - lo + 1) - k) % (hi - lo + 1)
      = (v + k - lo - k) % (hi - lo + 1) := by
    conv_lhs => rw [Int.sub_emod]
    conv_rhs => rw [Int.sub_emod]
    rw [Int.emod_emod_of_dvd _ dvd_rfl]
  rw [e2]
  have e3 : v + k - lo - k = v - lo := by ring
  rw [e3, Int.emod_eq_of_lt (by omega) (by omega)]
  ring

theorem wrap_roundtrip_witness :
    (2 : Int) ≤ 9 ∧ (2 : Int) ≤ 5 ∧ (5 : Int) ≤ 9 ∧
    wrap (wrap 5 13 2 9) (-13) 2 9 = 5 :=
  ⟨by decide, by decide, by decide,
   wrap_roundtrip 5 13 2 9 (by decide) (by decide) (by decide)⟩


/-- C2: with the full-step table, a sample that is not a legal quadrature
step from the current state — it complements both lines at once, skipping
an intermediate state — produces a `none` event and lands the decoder
directly on `_R_START` (so it is at rest by the following sample); and
from the illegal state every one of the four samples transitions to
`_R_START` with no direction emitted. -/
theorem illegal_step_rejected :
    (∀ s : Fin 8, ∀ p : Fin 4, s.val ≠ R_ILLEGAL →
        p.val = 3 - (stateLevels s).val →
        eventOf (advance transition_table s.val p) = .none ∧
        advance transition_table s.val p &&& STATE_MASK = R_START) ∧
    (∀ p : Fin 4,
        eventOf (advance transition_table R_ILLEGAL p) = .none ∧
        advance transition_table R_ILLEGAL p &&& STATE_MASK = R_START) := by
  decide

theorem illegal_step_rejected_witness :
    ((3 : Fin 8).val ≠ R_ILLEGAL ∧ (2 : Fin 4).val = 3 - (stateLevels 3).val) ∧
    (eventOf (advance transition_table (3 : Fin 8).val 2) = .none ∧
     advance transition_table (3 : Fin 8).val 2 &&& STATE_MASK = R_START) :=
  ⟨⟨by decide, by decide⟩,
   illegal_step_rejected.1 3 2 (by decide) (by decide)⟩

/-- No entry of the full-step table carries the illegal state in its
state bits, checked row by row. -/
theorem table_row_not_illegal :
    ∀ row : Fin 8, ∀ p : Fin 4,
      ((transition_table.getD row.val []).getD p.val 0) &&& STATE_MASK
        ≠ R_ILLEGAL := by
  decide

/-- A full-step lookup from any (unmasked) state never yields the illegal
state. -/
theorem advance_not_illegal (n : Nat) (p : Fin 4) :
    advance transition_table n p &&& STATE_MASK ≠ R_ILLEGAL := by
  have h : n &&& STATE_MASK < 8 := by
    have hle : n &&& STATE_MASK ≤ STATE_MASK := Nat.and_le_right
    have : STATE_MASK = 7 := rfl
    omega
  exact table_row_not_illegal ⟨n &&& STATE_MASK, h⟩ p

/-- Along any sample sequence, a full-step tracker whose state bits are
not illegal keeps that invariant. -/
theorem processSeq_not_illegal (ss : List (Fin 4)) :
    ∀ r : Rotary, r.half_step = false →
      r.state &&& STATE_MASK ≠ R_ILLEGAL →
      (processSeq r ss).state &&& STATE_MASK ≠ R_ILLEGAL := by
  induction ss with
  | nil => exact fun r _ h => h
  | cons p ps ih =>
    intro r hhs h
    show (processSeq (process r p).rotary ps).state &&& STATE_MASK ≠ R_ILLEGAL
    apply ih
    · rw [process_half_step]; exact hhs
    · rw [process_state]
      unfold nextState
      rw [hhs]
      exact advance_not_illegal r.state (pinsOf r.invert p)

/-- C10: no entry of the full-step table has state bits equal to the
illegal state, and consequently a tracker started at `_R_START` in
full-step mode never occupies the illegal state, whatever the sample
sequence: the illegal row is dead defensive code. -/
theorem full_step_never_illegal :
    (∀ s : Fin 8, ∀ p : Fin 4,
        advance transition_table s.val p &&& STATE_MASK ≠ R_ILLEGAL) ∧
    (∀ r : Rotary, r.state = R_START → r.half_step = false →
      ∀ ss : List (Fin 4),
        (processSeq r ss).state &&& STATE_MASK ≠ R_ILLEGAL) := by
  refine ⟨fun s p => advance_not_illegal s.val p, fun r h1 h2 ss => ?_⟩
  apply processSeq_not_illegal ss r h2
  rw [h1]
  decide

theorem full_step_never_illegal_witness :
    ((mkRotary 0 10 1 false RANGE_UNBOUNDED false false).state = R_START ∧
     (mkRotary 0 10 1 false RANGE_UNBOUNDED false false).half_step = false) ∧
    (processSeq (mkRotary 0 10 1 false RANGE_UNBOUNDED false false)
        [2, 0, 1, 3]).state &&& STATE_MASK ≠ R_ILLEGAL :=
  ⟨⟨rfl, rfl⟩,
   full_step_never_illegal.2 _ rfl rfl [2, 0, 1, 3]⟩

/-- A range-mode dispatch in wrapping or clamped mode lands in
`[min_val, max_val]` whenever the bounds are ordered. -/
theorem applyRange_mem (r : Rotary) (i : Int) (hlh : r.min_val ≤ r.max_val)
    (hm : r.range_mode = RANGE_WRAP ∨ r.range_mode = RANGE_BOUNDED) :
    r.min_val ≤ applyRange r i ∧ applyRange r i ≤ r.max_val := by
  unfold applyRange
  rcases hm with h | h <;> rw [h]
  · have : (RANGE_WRAP == RANGE_WRAP) = true := rfl
    rw [this, if_pos rfl]
    exact wrap_mem r.value i r.min_val r.max_val hlh
  · have h1 : (RANGE_BOUNDED == RANGE_WRAP) = false := rfl
    have h2 : (RANGE_BOUNDED == RANGE_BOUNDED) = true := rfl
    rw [h1, h2]
    simp only [Bool.false_eq_true, if_false, if_true, bound]
    omega

/-- C4: with ordered bounds and wrapping or clamped range mode, the
tracked value lies in `[min_val, max_val]` after every
`_process_rotary_pins` call, for any sample and any prior value. -/
theorem value_in_bounds (r : Rotary) (hlh : r.min_val ≤ r.max_val)
    (hm : r.range_mode = RANGE_WRAP ∨ r.range_mode = RANGE_BOUNDED)
    (p : Fin 4) :
    r.min_val ≤ (process r p).rotary.value ∧
    (process r p).rotary.value ≤ r.max_val := by
  rw [process_value]
  exact applyRange_mem r _ hlh hm

/-- Along any sample sequence, two unbounded-mode trackers that agree on
everything except the sign of `_reverse` (and possibly their current
values) produce elementwise-negated delta sequences: in unbounded mode
the per-sample delta is the direction increment times `_reverse`,
independent of the current value, and the decoder state evolves
identically on both. -/
theorem deltasSeq_unbounded_reverse (ss : List (Fin 4)) :
    ∀ (mn mx ic rv : Int) (st : Nat) (hs iv : Bool) (ls : List Listener)
      (v1 v2 : Int),
      deltasSeq (Rotary.mk mn mx ic (-rv) RANGE_UNBOUNDED v1 st hs iv ls) ss
        = (deltasSeq (Rotary.mk mn mx ic rv RANGE_UNBOUNDED v2 st hs iv ls) ss).map
            (fun d => -d) := by
  induction ss with
  | nil => intro mn mx ic rv st hs iv ls v1 v2; rfl
  | cons p ps ih =>
    intro mn mx ic rv st hs iv ls v1 v2
    have hstep : ∀ rv' v : Int,
        (process (Rotary.mk mn mx ic rv' RANGE_UNBOUNDED v st hs iv ls) p).rotary
          = Rotary.mk mn mx ic rv' RANGE_UNBOUNDED
              (v + (if (if hs then advance transition_table_half_step st (pinsOf iv p)
                        else advance transition_table st (pinsOf iv p)) &&& DIR_MASK
                        == DIR_CW
                    then ic
                    else if (if hs then advance transition_table_half_step st (pinsOf iv p)
                             else advance transition_table st (pinsOf iv p)) &&& DIR_MASK
                             == DIR_CCW
                    then -ic else 0) * rv')
              (if hs then advance transition_table_half_step st (pinsOf iv p)
               else advance transition_table st (pinsOf iv p)) hs iv ls :=
      fun rv' v => rfl
    simp only [deltasSeq, hstep, List.map_cons]
    congr 1
    · ring
    · exact ih mn mx ic rv _ hs iv ls _ _

/-- C8 counterexample: in clamped (`RANGE_BOUNDED`) mode with bounds
`[0, 10]` and starting value `0`, the counter-clockwise detent sequence
01, 00, 10, 11 gives deltas `[0, 0, 0, 0]` without reversal (the clamp
absorbs the decrement at the lower bound) but `[0, 0, 0, 1]` with
reversal — not the elementwise negation. -/
theorem reversal_deltas_counterexample :
    ¬ (deltasSeq (mkRotary 0 10 1 true RANGE_BOUNDED false false) [1, 0, 2, 3]
        = (deltasSeq (mkRotary 0 10 1 false RANGE_BOUNDED false false)
            [1, 0, 2, 3]).map (fun d => -d)) := by
  decide

/-- C8 amended: in `RANGE_UNBOUNDED` mode, for every fixed sample
sequence, the delta sequence of a tracker constructed with
`reverse=True` is the elementwise negation of that of the tracker
constructed with `reverse=False`, all else equal.  (In wrapping and
clamped modes the boundary behaviour breaks the symmetry.) -/
theorem reversal_deltas_unbounded (mn mx ic : Int) (hs iv : Bool)
    (ss : List (Fin 4)) :
    deltasSeq (mkRotary mn mx ic true RANGE_UNBOUNDED hs iv) ss
      = (deltasSeq (mkRotary mn mx ic false RANGE_UNBOUNDED hs iv) ss).map
          (fun d => -d) :=
  deltasSeq_unbounded_reverse ss mn mx ic 1 R_START hs iv [] mn mn

/-- `_trigger` on a listener list whose first faulting listener is `bad k`
invokes exactly the listeners up to and including `bad k`, and the fault
escapes the loop. -/
theorem trigger_append_bad (ids : List Nat) (k : Nat) (rest : List Listener) :
    trigger (ids.map Listener.ok ++ Listener.bad k :: rest) = (ids ++ [k], true) := by
  induction ids with
  | nil => rfl
  | cons i is ih => simp [trigger, ih]


/-- C5 counterexample: processing sample 11 from `faultyListenerTracker`
changes the value from 0 to 1, so listeners fire; the faulting first
listener aborts the `_trigger` loop, the second listener is never
invoked, and the bare `except: pass` of lines 161-165 reports the fault
nowhere. -/
theorem listener_fault_counterexample :
    faultyListenerTracker.value = 0 ∧
    (process faultyListenerTracker 3).rotary.value = 1 ∧
    (process faultyListenerTracker 3).invoked = [0] ∧
    (1 : Nat) ∉ (process faultyListenerTracker 3).invoked ∧
    (process faultyListenerTracker 3).reported = [] := by
  decide

/-- C5 amended: when a value change triggers the listeners and the first
faulting listener is preceded only by well-behaved ones, the fault does
not propagate out of `_process_rotary_pins` (the bare `except` catches
it and the call returns normally), the listeners before the fault and
the faulting one are the only ones invoked — the remaining listeners are
skipped — and the fault is reported to no error-observation channel. -/
theorem listener_fault_swallowed (r : Rotary) (p : Fin 4) (ids : List Nat)
    (k : Nat) (rest : List Listener)
    (hl : r.listener = ids.map Listener.ok ++ Listener.bad k :: rest)
    (hch : (process r p).rotary.value ≠ r.value) :
    (process r p).invoked = ids ++ [k] ∧ (process r p).reported = [] := by
  refine ⟨?_, rfl⟩
  rw [process_value] at hch
  have hne : r.listener ≠ [] := by rw [hl]; simp
  rw [process_invoked_eq, if_pos ⟨Ne.symm hch, hne⟩, hl, trigger_append_bad]

theorem listener_fault_swallowed_witness :
    (faultyListenerTracker.listener
        = ([] : List Nat).map Listener.ok ++ Listener.bad 0 :: [Listener.ok 1] ∧
     (process faultyListenerTracker 3).rotary.value ≠ faultyListenerTracker.value) ∧
    ((process faultyListenerTracker 3).invoked = [] ++ [0] ∧
     (process faultyListenerTracker 3).reported = []) :=
  ⟨⟨rfl, by decide⟩,
   listener_fault_swallowed faultyListenerTracker 3 [] 0 [Listener.ok 1]
     rfl (by decide)⟩

/-- C6 counterexample: `set` with `min_val=5`, `max_val=1` — an update
that makes lowerBound > upperBound — raises no error: the invalid bounds
are applied to the tracker as given, contradicting the claim that such a
call fails synchronously with the state left entirely unchanged. -/
theorem set_no_validation_counterexample :
    (((mkRotary 0 10 1 false RANGE_UNBOUNDED false false).set
        none (some 5) none (some 1) none none).1.min_val = 5 ∧
     ((mkRotary 0 10 1 false RANGE_UNBOUNDED false false).set
        none (some 5) none (some 1) none none).1.max_val = 1) ∧
    ¬ ((5 : Int) ≤ 1) := by
  decide

/-- C6 amended: `set` performs no validation at all: every supplied
field — including bounds with lowerBound > upperBound and non-positive
increments — is applied unconditionally, no error is raised (the
function always returns normally), the decoder state is reset to
`_R_START`, and no listener is invoked. -/
theorem set_applies_unconditionally (r : Rotary) (v mn ic mx : Option Int)
    (rev : Option Bool) (rm : Option Nat) :
    (r.set v mn ic mx rev rm).1.min_val = mn.getD r.min_val ∧
    (r.set v mn ic mx rev rm).1.max_val = mx.getD r.max_val ∧
    (r.set v mn ic mx rev rm).1.incr = ic.getD r.incr ∧
    (r.set v mn ic mx rev rm).1.value = v.getD r.value ∧
    (r.set v mn ic mx rev rm).1.range_mode = rm.getD r.range_mode ∧
    (r.set v mn ic mx rev rm).1.state = R_START ∧
    (r.set v mn ic mx rev rm).2 = [] :=
  ⟨rfl, rfl, rfl, rfl, rfl, rfl, rfl⟩

/-- C9: re-seeding the tracked value sets it and invokes no listener:
`set(value=v)` (the spec's `resetValue` path with an explicit value)
stores `v` and contains no listener invocation, and `reset()` stores the
fixed value `0`, likewise without invoking any listener. -/
theorem reseed_value_no_listeners (r : Rotary) (v : Int) :
    (r.set (some v) none none none none none).1.value = v ∧
    (r.set (some v) none none none none none).2 = [] ∧
    r.reset.1.value = 0 ∧ r.reset.2 = [] :=
  ⟨rfl, rfl, rfl, rfl⟩

theorem value_in_bounds_witness :
    ((mkRotary 0 10 1 false RANGE_BOUNDED false false).min_val
        ≤ (mkRotary 0 10 1 false RANGE_BOUNDED false false).max_val) ∧
    ((mkRotary 0 10 1 false RANGE_BOUNDED false false).min_val
        ≤ (process (mkRotary 0 10 1 false RANGE_BOUNDED false false) 2).rotary.value ∧
     (process (mkRotary 0 10 1 false RANGE_BOUNDED false false) 2).rotary.value
        ≤ (mkRotary 0 10 1 false RANGE_BOUNDED false false).max_val) :=
  ⟨by decide,
   value_in_bounds (mkRotary 0 10 1 false RANGE_BOUNDED false false)
     (by decide) (Or.inr rfl) 2⟩

end OneRing
